import Mathlib

/-!
Verification of the Azure Blob Storage integration: the catalog entity
provider (`AzureBlobStorageEntityProvider`), the URL reader
(`AzureBlobStorageUrlReader` with its `parseUrl` helper) and the
integration-config readers (`readAzureBlobStorageIntegrationConfig(s)`),
shallowly embedded as executable Lean definitions.
-/

namespace AzureBlob

/-! ## String splitting and joining (JS `String.split` / `Array.join`) -/

/-- Auxiliary splitter: returns the first component (up to the first
separator) and the remaining components. -/
def splitCharAux (sep : Char) : List Char → List Char × List (List Char)
  | [] => ([], [])
  | c :: rest =>
    let (s, ss) := splitCharAux sep rest
    if c = sep then ([], s :: ss) else (c :: s, ss)

/-- Models JS `String.split` with a single-character separator, at the
character-list level. Always returns a non-empty list of components. -/
def splitChar (sep : Char) (cs : List Char) : List (List Char) :=
  (splitCharAux sep cs).1 :: (splitCharAux sep cs).2

/-- Joins character-list components with a single-character separator. -/
def joinChar (sep : Char) : List (List Char) → List Char
  | [] => []
  | [s] => s
  | s :: t :: rest => s ++ sep :: joinChar sep (t :: rest)

/-- Models JS `String.split(sep)` for a one-character separator. -/
def jsSplit (s : String) (sep : Char) : List String :=
  (splitChar sep s.toList).map String.mk

/-- Models JS `Array.join(sep)`. -/
def jsJoin (sep : String) : List String → String
  | [] => ""
  | [s] => s
  | s :: t :: rest => s ++ sep ++ jsJoin sep (t :: rest)

theorem splitCharAux_append (sep : Char) (a b : List Char) :
    splitCharAux sep (a ++ sep :: b) =
      ((splitCharAux sep a).1, (splitCharAux sep a).2 ++ splitChar sep b) := by
  induction a with
  | nil => simp [splitCharAux, splitChar]
  | cons c a ih =>
      by_cases h : c = sep <;> simp [splitCharAux, ih, h]

theorem splitChar_append (sep : Char) (a b : List Char) :
    splitChar sep (a ++ sep :: b) = splitChar sep a ++ splitChar sep b := by
  simp [splitChar, splitCharAux_append]

theorem splitCharAux_no_sep (sep : Char) (a : List Char)
    (h : ∀ c ∈ a, c ≠ sep) : splitCharAux sep a = (a, []) := by
  induction a with
  | nil => simp [splitCharAux]
  | cons c a ih =>
      have hc : c ≠ sep := h c (by simp)
      simp [splitCharAux, hc, ih (fun x hx => h x (by simp [hx]))]

theorem splitChar_no_sep (sep : Char) (a : List Char)
    (h : ∀ c ∈ a, c ≠ sep) : splitChar sep a = [a] := by
  simp [splitChar, splitCharAux_no_sep sep a h]

theorem joinChar_splitChar (sep : Char) (l : List Char) :
    joinChar sep (splitChar sep l) = l := by
  induction l with
  | nil => simp [splitChar, splitCharAux, joinChar]
  | cons c rest ih =>
      simp only [splitChar, splitCharAux] at *
      by_cases h : c = sep
      · simp only [if_pos h]
        cases hss : (splitCharAux sep rest).2 with
        | nil => simp only [hss, joinChar] at ih ⊢; simp [ih, h]
        | cons t ts => simp only [hss, joinChar] at ih ⊢; simp [ih, h]
      · simp only [if_neg h]
        cases hss : (splitCharAux sep rest).2 with
        | nil => simp only [hss, joinChar] at ih ⊢; simp [ih]
        | cons t ts => simp only [hss, joinChar] at ih ⊢; simp [ih]

/-- Two strings with the same character data are equal. -/
theorem strExt {a b : String} (h : a.data = b.data) : a = b :=
  congrArg String.mk h

/-- `String.mk` sends `[]` and only `[]` to the empty string. -/
theorem mk_eq_nil_iff (p : List Char) : String.mk p = "" ↔ p = [] := by
  constructor
  · intro h; simpa using congrArg String.data h
  · intro h; subst h; rfl

theorem mk_append (a b : List Char) :
    String.mk a ++ String.mk b = String.mk (a ++ b) := rfl

theorem jsJoin_map_mk (l : List (List Char)) :
    jsJoin "/" (l.map String.mk) = String.mk (joinChar '/' l) := by
  induction l with
  | nil => rfl
  | cons s rest ih =>
      cases rest with
      | nil => rfl
      | cons t ts =>
          simp only [List.map, jsJoin, joinChar] at ih ⊢
          rw [ih]
          apply strExt
          simp [String.data_append]

theorem jsJoin_jsSplit (s : String) : jsJoin "/" (jsSplit s '/') = s := by
  unfold jsSplit
  rw [jsJoin_map_mk, joinChar_splitChar]
  apply strExt
  simp

theorem filter_map_mk (l : List (List Char)) :
    (l.map String.mk).filter (fun s => decide (s ≠ "")) =
      (l.filter (fun p => decide (p ≠ []))).map String.mk := by
  induction l with
  | nil => rfl
  | cons p rest ih =>
      simp only [ne_eq, decide_not] at ih ⊢
      simp only [List.map_cons, List.filter_cons]
      by_cases h : p = []
      · simp [mk_eq_nil_iff, h, ih]
      · simp [mk_eq_nil_iff, h, ih]

/-! ## URL model

Models the part of WHATWG `new URL(...)` that the reader uses: the
`pathname` of a well-formed `https://host/path` URL whose characters need
no percent-encoding. The host runs to the first `/`, `?` or `#`; the
pathname runs from that `/` to the first `?` or `#`, and is `/` when the
URL has no path. -/

def isUrlDelim (c : Char) : Bool := c = '/' || c = '?' || c = '#'

/-- Splits off the host: the characters before the first URL delimiter. -/
def hostSpan : List Char → List Char × List Char
  | [] => ([], [])
  | c :: rest =>
    if isUrlDelim c then ([], c :: rest)
    else
      let (h, r) := hostSpan rest
      (c :: h, r)

/-- The pathname characters: from the leading `/` to the first `?` or `#`. -/
def pathWithin (cs : List Char) : List Char :=
  cs.takeWhile (fun c => c ≠ '?' && c ≠ '#')

/-- The path segment `.`. -/
def dotSeg : List Char := ['.']

/-- The path segment `..`. -/
def dotDotSeg : List Char := ['.', '.']

/-- WHATWG dot-segment normalization of a URL path's segments: a `.`
segment is skipped, a `..` segment pops the previous output segment, and a
final `.` or `..` additionally leaves a trailing empty segment (the
serialized path keeps its trailing slash). Every other segment — empty ones
included — is kept verbatim. -/
def dotNormalize (acc : List (List Char)) : List (List Char) → List (List Char)
  | [] => acc
  | [s] =>
    if s = dotSeg then acc ++ [[]]
    else if s = dotDotSeg then acc.dropLast ++ [[]]
    else acc ++ [s]
  | s :: t :: rest =>
    if s = dotSeg then dotNormalize acc (t :: rest)
    else if s = dotDotSeg then dotNormalize acc.dropLast (t :: rest)
    else dotNormalize (acc ++ [s]) (t :: rest)

/-- Models `new URL(url).pathname` for `https` URLs (the only scheme this
integration builds and reads): the serialized path is `/` followed by the
dot-segment-normalized segments joined with `/`. Returns `none` where
`new URL` throws. -/
def urlPathname? (url : String) : Option String :=
  let cs := url.toList
  if cs.take 8 = "https://".toList then
    let rest := cs.drop 8
    let hp := hostSpan rest
    if hp.1 = [] then none
    else
      match hp.2 with
      | [] => some "/"
      | c :: cs2 =>
        if c = '/' then
          some (String.mk
            ('/' :: joinChar '/' (dotNormalize [] (splitChar '/' (pathWithin cs2)))))
        else some "/"
  else none

theorem dotNormalize_no_dots (l : List (List Char)) (acc : List (List Char))
    (h : ∀ s ∈ l, s ≠ dotSeg ∧ s ≠ dotDotSeg) :
    dotNormalize acc l = acc ++ l := by
  induction l generalizing acc with
  | nil => simp [dotNormalize]
  | cons s rest ih =>
      obtain ⟨h1, h2⟩ := h s (by simp)
      cases rest with
      | nil => simp [dotNormalize, h1, h2]
      | cons t ts =>
          have step := ih (acc ++ [s]) (fun x hx => h x (by simp [hx]))
          simp [dotNormalize, h1, h2, step]

theorem hostSpan_no_delim (h : List Char) (c : Char) (r : List Char)
    (hh : ∀ x ∈ h, isUrlDelim x = false) (hc : isUrlDelim c = true) :
    hostSpan (h ++ c :: r) = (h, c :: r) := by
  induction h with
  | nil => simp [hostSpan, hc]
  | cons x xs ih =>
      have hx : isUrlDelim x = false := hh x (by simp)
      have ih' := ih (fun y hy => hh y (by simp [hy]))
      simp [hostSpan, hx, ih']

theorem takeWhile_all {p : Char → Bool} (l : List Char)
    (h : ∀ c ∈ l, p c = true) : l.takeWhile p = l := by
  induction l with
  | nil => rfl
  | cons c cs ih =>
      simp [List.takeWhile, h c (by simp), ih (fun x hx => h x (by simp [hx]))]

/-- `new URL("https://" ++ host ++ "/" ++ rest).pathname = "/" ++ rest` for a
host without URL delimiters and a path without `?` or `#` whose segments are
no dot segments (so normalization keeps them). -/
theorem urlPathname_https (hostS pathRest : String)
    (hne : hostS.toList ≠ [])
    (hh : ∀ c ∈ hostS.toList, isUrlDelim c = false)
    (hp : ∀ c ∈ pathRest.toList, (c ≠ '?' && c ≠ '#') = true)
    (hd : ∀ s ∈ splitChar '/' pathRest.toList, s ≠ dotSeg ∧ s ≠ dotDotSeg) :
    urlPathname? ("https://" ++ hostS ++ "/" ++ pathRest) =
      some ("/" ++ pathRest) := by
  have hdata : ("https://" ++ hostS ++ "/" ++ pathRest).toList
      = "https://".toList ++ (hostS.toList ++ '/' :: pathRest.toList) := by
    simp [String.toList, String.data_append]
  have htake : ("https://".toList ++ (hostS.toList ++ '/' :: pathRest.toList)).take 8
      = "https://".toList := by
    rw [show (8 : Nat) = "https://".toList.length from rfl]
    exact List.take_left _ _
  have hdrop : ("https://".toList ++ (hostS.toList ++ '/' :: pathRest.toList)).drop 8
      = hostS.toList ++ '/' :: pathRest.toList := by
    rw [show (8 : Nat) = "https://".toList.length from rfl]
    exact List.drop_left _ _
  have hpath : pathWithin pathRest.toList = pathRest.toList := by
    unfold pathWithin
    exact takeWhile_all _ hp
  have hnorm : dotNormalize [] (splitChar '/' pathRest.toList)
      = splitChar '/' pathRest.toList := by
    simpa using dotNormalize_no_dots (splitChar '/' pathRest.toList) [] hd
  have hjoin : joinChar '/' (splitChar '/' pathRest.toList) = pathRest.toList :=
    joinChar_splitChar '/' pathRest.toList
  have hmk : String.mk ('/' :: pathRest.toList) = "/" ++ pathRest := by
    apply strExt
    simp [String.data_append]
  unfold urlPathname?
  rw [hdata]
  simp only [htake, hdrop]
  rw [hostSpan_no_delim hostS.toList '/' pathRest.toList hh rfl]
  simp only [String.toList] at hne hpath hnorm hjoin hmk
  simp [hne, hpath, hnorm, hjoin, hmk]

/-! ## `parseUrl` (AzureBlobStorageUrlReader.ts, free function) -/

/-- Result of `parseUrl`: `{ path, container }`. -/
structure ParsedAzureUrl where
  path : String
  container : String
deriving DecidableEq, Repr

/-- Embeds `parseUrl` of the reader module: takes `new URL(url).pathname`,
splits it on `/`, drops falsy (empty) segments, requires at least two
segments, and returns the first as the container and the rest re-joined
with `/` as the blob path. `new URL` throwing is the `none` branch. -/
def parseUrl (url : String) : Except String ParsedAzureUrl :=
  match urlPathname? url with
  | none => .error ("Invalid URL: " ++ url)
  | some pathname =>
    let pathSegments := (jsSplit pathname '/').filter (fun s => decide (s ≠ ""))
    if pathSegments.length < 2 then
      .error ("Invalid Azure Blob Storage URL format: " ++ url)
    else
      .ok { container := pathSegments[0]!, path := jsJoin "/" (pathSegments.drop 1) }

/-! ## AzureBlobStorageEntityProvider -/

/-- The provider's own config entry (`AzureBlobStorageConfig` in the
provider plugin): id and container name. -/
structure AzureBlobStorageConfig where
  id : String
  containerName : String
deriving DecidableEq, Repr

/-- State of an `AzureBlobStorageEntityProvider` instance: its config, the
integration's account name and host, and the two nullable fields `connection`
(here a flag) and `blobServiceClient` (here the client's `url`). -/
structure ProviderState where
  config : AzureBlobStorageConfig
  accountName : String
  host : String
  connected : Bool
  blobServiceClientUrl : Option String
deriving DecidableEq, Repr

/-- The service URL `connect` builds:
`https://${accountName}.${host}`. The storage SDK's client normalizes the
URL it is given to carry an explicit root path (its `escapeURLPath` turns an
empty path into `/`), so the client's `.url` property reads back with a
trailing slash; the normalized form is modelled here. -/
def mkServiceUrl (accountName host : String) : String :=
  "https://" ++ accountName ++ "." ++ host ++ "/"

/-- `connect`: stores the connection and constructs the `BlobServiceClient`. -/
def connect (s : ProviderState) : ProviderState :=
  { s with
    connected := true,
    blobServiceClientUrl := some (mkServiceUrl s.accountName s.host) }

/-- `getProviderName()`: `azureBlobStorage-provider:${this.config.id}`. -/
def getProviderName (s : ProviderState) : String :=
  "azureBlobStorage-provider:" ++ s.config.id

/-- `createObjectUrl(key)`: `${this.blobServiceClient?.url}${containerName}/${key}`.
A JS template literal renders an undefined client as the text `undefined`. -/
def createObjectUrl (s : ProviderState) (key : String) : String :=
  (s.blobServiceClientUrl.getD "undefined") ++ s.config.containerName ++ "/" ++ key

/-- `createLocationSpec(key)`. -/
structure LocationSpec where
  type : String
  target : String
  presence : String
deriving DecidableEq, Repr

def createLocationSpec (s : ProviderState) (key : String) : LocationSpec :=
  { type := "url", target := createObjectUrl s key, presence := "required" }

/-- `locationSpecToLocationEntity` of the catalog collaborator: wraps a
location spec into a location entity (its internals are not inspected). -/
structure LocationEntity where
  location : LocationSpec
deriving DecidableEq, Repr

def locationSpecToLocationEntity (location : LocationSpec) : LocationEntity :=
  ⟨location⟩

/-- One entry of a mutation's `entities` array. -/
structure DeferredEntity where
  locationKey : String
  entity : LocationEntity
deriving DecidableEq, Repr

/-- A mutation handed to `connection.applyMutation`. -/
structure Mutation where
  type : String
  entities : List DeferredEntity
deriving DecidableEq, Repr

/-- A blob item returned by the backend's `listBlobsFlat()`. -/
structure Blob where
  name : String
  lastModified : Nat
deriving DecidableEq, Repr

/-- `listAllBlobKeys()`: drains the flat listing and pushes each truthy
(non-empty) `blob.name`. -/
def listAllBlobKeys (blobs : List Blob) : List String :=
  blobs.foldl (fun keys b => if b.name ≠ "" then keys ++ [b.name] else keys) []

/-- The full mutation `refresh` publishes: type `full`, one entity per
discovered key, each keyed by the provider name. -/
def fullMutation (s : ProviderState) (blobs : List Blob) : Mutation :=
  { type := "full",
    entities := (listAllBlobKeys blobs).map fun key =>
      { locationKey := getProviderName s,
        entity := locationSpecToLocationEntity (createLocationSpec s key) } }

/-- `refresh(logger)`: throws `Not initialized` without a connection;
otherwise lists all blob keys (the listing itself may fail, which aborts the
cycle before anything is published) and applies one full mutation to the
connected sink. The sink is modelled as the list of mutations applied so
far; a thrown error leaves it untouched. -/
def refresh (s : ProviderState) (listing : Except String (List Blob))
    (sink : List Mutation) : Except String Unit × List Mutation :=
  if s.connected = false then (.error "Not initialized", sink)
  else
    match listing with
    | .error e => (.error e, sink)
    | .ok blobs => (.ok (), sink ++ [fullMutation s blobs])

/-- The task body `createScheduleFn` registers: runs `refresh` and catches
every error at the cycle boundary (logging it), never rethrowing to the
scheduler. Returns the sink after the cycle and whether an error was
logged. -/
def scheduledRefreshTask (s : ProviderState) (listing : Except String (List Blob))
    (sink : List Mutation) : List Mutation × Bool :=
  match refresh s listing sink with
  | (.error _, sink') => (sink', true)
  | (.ok _, sink') => (sink', false)

theorem listAllBlobKeys_eq (blobs : List Blob) :
    listAllBlobKeys blobs = (blobs.map Blob.name).filter (fun n => decide (n ≠ "")) := by
  have general : ∀ (l : List Blob) (acc : List String),
      l.foldl (fun keys b => if b.name ≠ "" then keys ++ [b.name] else keys) acc
        = acc ++ (l.map Blob.name).filter (fun n => decide (n ≠ "")) := by
    intro l
    induction l with
    | nil => intro acc; simp
    | cons b rest ih =>
        intro acc
        simp only [ne_eq, decide_not, ite_not] at ih
        by_cases h : b.name = ""
        · simp [List.foldl, h, ih]
        · simp [List.foldl, h, ih]
  simpa [listAllBlobKeys] using general blobs []

/-! ## AzureBlobStorageUrlReader

`readUrl` and `readTree` from the reader module. The storage backend is an
external collaborator: its listing/conditional-download contract is modelled
from the spec (§6: `download(path, conditions?) -> stream | NotModified`,
paginated listing of every key under a given string). Downloads the reader
opens are logged as `DownloadRequest`s so that the conditions and abort
wiring each call receives are visible in theorems. -/

/-- The JS error values flowing through the reader: plain `Error`s, backend
REST failures (their HTTP status surfaced in the error metadata the reader's
`catch` inspects), `NotModifiedError`, and `ForwardedError(message, cause)`. -/
inductive JsError where
  | plain (message : String)
  | rest (metadataStatus : Option Nat) (message : String)
  | notModified
  | forwarded (message : String) (cause : JsError)
deriving DecidableEq, Repr

/-- Options of `readUrl`: `etag`, `lastModifiedAfter`, and whether the
caller's `signal` fires while the download is in flight. -/
structure ReadUrlOptions where
  etag : Option String := none
  lastModifiedAfter : Option Nat := none
  signalFires : Bool := false
deriving DecidableEq, Repr

/-- The `conditions` object passed to `blobClient.download`. -/
structure DownloadConditions where
  ifNoneMatch : Option String := none
  ifModifiedSince : Option Nat := none
deriving DecidableEq, Repr

/-- One download the reader opens: where it points, the conditions it
carries, and whether the caller's cancel signal was linked to it (i.e.
whether an abort signal was passed into the SDK call). -/
structure DownloadRequest where
  container : String
  blobPath : String
  conditions : DownloadConditions
  abortSignalLinked : Bool
deriving DecidableEq, Repr

/-- A stored blob: content bytes, current ETag and last-modified time. -/
structure BlobObject where
  content : List Nat
  etag : String
  lastModified : Nat
deriving DecidableEq, Repr

/-- A blob store: container name and blob path to the stored object. -/
def BlobStore := String → String → Option BlobObject

/-- Modelled from the spec: the backend's conditional download. An aborted
request fails; a missing blob fails with HTTP 404; a matching `ifNoneMatch`
etag or an `ifModifiedSince` bound the object does not exceed answers the
HTTP-304-equivalent "not modified" failure, its status surfaced in the
error's metadata; otherwise the object is returned. -/
def azureDownload (store : BlobStore) (signalFired : Bool)
    (req : DownloadRequest) : Except JsError BlobObject :=
  if req.abortSignalLinked && signalFired then
    .error (.rest none "The operation was aborted.")
  else
    match store req.container req.blobPath with
    | none => .error (.rest (some 404) "The specified blob does not exist.")
    | some blob =>
      if req.conditions.ifNoneMatch = some blob.etag then
        .error (.rest (some 304) "The condition specified using HTTP conditional header(s) is not met.")
      else
        match req.conditions.ifModifiedSince with
        | some t =>
          if blob.lastModified ≤ t then
            .error (.rest (some 304) "The condition specified using HTTP conditional header(s) is not met.")
          else .ok blob
        | none => .ok blob

/-- The value `readUrl` resolves with. -/
structure ReadUrlResponse where
  content : List Nat
  etag : Option String
  lastModifiedAt : Option Nat
deriving DecidableEq, Repr

/-- The `try` block of `readUrl`: parse the URL, build the conditions from
`etag`/`lastModifiedAfter`, and download. The `AbortController` the source
creates is never handed to `blobClient.download` (only `conditions` are in
`getBlobOptions`), so the logged request carries no abort-signal link. -/
def readUrlAttempt (store : BlobStore) (url : String) (opts : ReadUrlOptions) :
    Except JsError ReadUrlResponse × List DownloadRequest :=
  match parseUrl url with
  | .error msg => (.error (.plain msg), [])
  | .ok parsed =>
    let req : DownloadRequest :=
      { container := parsed.container,
        blobPath := parsed.path,
        conditions :=
          { ifNoneMatch := opts.etag, ifModifiedSince := opts.lastModifiedAfter },
        abortSignalLinked := false }
    let result : Except JsError ReadUrlResponse :=
      match azureDownload store opts.signalFires req with
      | .error e => .error e
      | .ok blob =>
        .ok { content := blob.content, etag := some blob.etag,
              lastModifiedAt := some blob.lastModified }
    (result, [req])

/-- The `catch` clause's test `e.$metadata && e.$metadata.httpStatusCode === 304`. -/
def hasMetadata304 : JsError → Bool
  | .rest (some n) _ => n == 304
  | _ => false

/-- `readUrl(url, options)`: the `try` body wrapped by the `catch` clause,
which maps a 304-carrying error to `NotModifiedError` and wraps every other
failure in a `ForwardedError` keeping the original cause. -/
def readUrl (store : BlobStore) (url : String) (opts : ReadUrlOptions) :
    Except JsError ReadUrlResponse × List DownloadRequest :=
  (match (readUrlAttempt store url opts).1 with
   | .ok r => .ok r
   | .error e =>
     if hasMetadata304 e then .error .notModified
     else .error (.forwarded "Could not retrieve file from Azure Blob Storage" e),
   (readUrlAttempt store url opts).2)

/-! ### `readTree` and `path/posix.relative` -/

/-- Resolves a posix path string into its normalized segment list (the
effect of `posix.resolve` on paths that stay below their starting point):
empty and `.` segments vanish, `..` pops. -/
def posixResolveSegs (p : String) : List String :=
  (jsSplit p '/').foldl
    (fun acc seg =>
      if seg = "" ∨ seg = "." then acc
      else if seg = ".." then acc.dropLast
      else acc ++ [seg]) []

/-- Length of the common leading run of two segment lists. -/
def commonPrefixLength : List String → List String → Nat
  | [], _ => 0
  | _ :: _, [] => 0
  | a :: as, b :: bs => if a = b then commonPrefixLength as bs + 1 else 0

/-- Models Node's `path/posix.relative(from, to)`: resolve both arguments,
drop their common leading segments, and join one `..` per remaining
`from`-segment with the remaining `to`-segments, always with forward
slashes. -/
def posixRelative (fromPath toPath : String) : String :=
  let f := posixResolveSegs fromPath
  let t := posixResolveSegs toPath
  let k := commonPrefixLength f t
  jsJoin "/" (List.replicate (f.length - k) ".." ++ t.drop k)

/-- A blob in the tree listing, with its downloadable content. -/
structure TreeBlobItem where
  name : String
  lastModified : Nat
  content : List Nat
deriving DecidableEq, Repr

/-- One `{ data, path, lastModifiedAt }` entry `readTree` aggregates. -/
structure TreeResponseEntry where
  data : List Nat
  path : String
  lastModifiedAt : Nat
deriving DecidableEq, Repr

/-- Modelled from the spec: `listBlobsFlat({ prefix })` lists every object
whose key starts with the given string. -/
def listBlobsFlat (blobs : List TreeBlobItem) (pfx : String) : List TreeBlobItem :=
  blobs.filter (fun b => pfx.toList.isPrefixOf b.name.toList)

/-- `readTree(url, options)`: parse the URL, list the container under the
parsed path, download every listed blob with `blobClient.download()` — no
options at all, hence unconditional and without the locally created
`AbortController`'s signal — and aggregate one entry per blob whose `path`
is `relative(path, blob.name)`. Failures are wrapped in a `ForwardedError`. -/
def readTree (blobs : List TreeBlobItem) (url : String) (signalFires : Bool) :
    Except JsError (List TreeResponseEntry) × List DownloadRequest :=
  match parseUrl url with
  | .error msg =>
    (.error (.forwarded "Could not retrieve file tree from Azure Blob Storage" (.plain msg)), [])
  | .ok parsed =>
    let listed := listBlobsFlat blobs parsed.path
    let reqs := listed.map fun b =>
      { container := parsed.container, blobPath := b.name,
        conditions := {}, abortSignalLinked := false }
    (.ok (listed.map fun b =>
      { data := b.content, path := posixRelative parsed.path b.name,
        lastModifiedAt := b.lastModified }), reqs)

/-! ## Integration config (packages/integration/src/azureBlobStorage/config.ts) -/

/-- Raw `aadCredential` sub-object as it sits in the config file: each
sub-field may be missing (reading a missing one throws). -/
structure AadCredentialConfig where
  clientId : Option String := none
  tenantId : Option String := none
  clientSecret : Option String := none
deriving DecidableEq, Repr

/-- Parsed `aadCredential`. -/
structure AadCredential where
  clientId : String
  tenantId : String
  clientSecret : String
deriving DecidableEq, Repr

/-- The raw single-integration config object: every field optional, plus the
optional `aadCredential` block (`config.has('aadCredential')` is its
presence). -/
structure AzureBlobConfigInput where
  host : Option String := none
  accountName : Option String := none
  accountKey : Option String := none
  sasToken : Option String := none
  connectionString : Option String := none
  endpointSuffix : Option String := none
  aadCredential : Option AadCredentialConfig := none
deriving DecidableEq, Repr

/-- `AzureBlobStorageIntegrationConfig` as returned by the reader.
`accountName` is optional in the type (the convenience entry appended by
the plural reader has none), though the single reader always sets it. -/
structure AzureBlobStorageIntegrationConfig where
  host : String
  accountName : Option String := none
  accountKey : Option String := none
  sasToken : Option String := none
  connectionString : Option String := none
  endpointSuffix : Option String := none
  aadCredential : Option AadCredential := none
deriving DecidableEq, Repr

/-- JS truthiness of an optional string: present and non-empty. -/
def jsTruthy : Option String → Bool
  | some s => s ≠ ""
  | none => false

/-- Models JS `String.prototype.trim`: strips leading and trailing
whitespace. -/
def jsTrim (s : String) : String :=
  String.mk
    (((s.toList.dropWhile Char.isWhitespace).reverse.dropWhile
      Char.isWhitespace).reverse)

/-- Reading the `aadCredential` block: `getString` on each sub-field throws
when it is missing; the secret is trimmed. -/
def readAadCredential : Option AadCredentialConfig →
    Except String (Option AadCredential)
  | none => .ok none
  | some a =>
    match a.clientId, a.tenantId, a.clientSecret with
    | some cid, some tid, some sec =>
      .ok (some { clientId := cid, tenantId := tid, clientSecret := jsTrim sec })
    | _, _, _ => .error "Missing required config value at aadCredential"

/-- `readAzureBlobStorageIntegrationConfig(config)`, parameterized by the
`isValidHost` helper (its own source lives outside the reader module; only
its verdict matters here). Field reads happen in source order: `host`
defaulted, `accountName` required, the optional strings trimmed, the
`aadCredential` block, then the host check and the two credential
mutual-exclusion checks. -/
def readAzureBlobStorageIntegrationConfig (isValidHost : String → Bool)
    (config : AzureBlobConfigInput) :
    Except String AzureBlobStorageIntegrationConfig :=
  let host := config.host.getD "blob.core.windows.net"
  match config.accountName with
  | none => .error "Missing required config value at accountName"
  | some accountName =>
    let accountKey := config.accountKey.map jsTrim
    let sasToken := config.sasToken.map jsTrim
    let connectionString := config.connectionString.map jsTrim
    let endpointSuffix := config.endpointSuffix.map jsTrim
    match readAadCredential config.aadCredential with
    | .error e => .error e
    | .ok aadCredential =>
      if isValidHost host = false then
        .error ("Invalid Azure Blob Storage config, host is not a valid host")
      else if jsTruthy accountKey && jsTruthy sasToken then
        .error ("Invalid Azure Blob Storage config: Both account key and SAS token cannot be used simultaneously.")
      else if aadCredential.isSome && (jsTruthy accountKey || jsTruthy sasToken) then
        .error ("Invalid Azure Blob Storage config: Cannot use both Azure AD credentials and account keys/SAS tokens for the same account.")
      else
        .ok { host := host, accountName := some accountName,
              accountKey := accountKey, sasToken := sasToken,
              connectionString := connectionString,
              endpointSuffix := endpointSuffix,
              aadCredential := aadCredential }

/-- The convenience entry the plural reader appends: `{ host: AZURE_HOST }`. -/
def defaultAzureBlobEntry : AzureBlobStorageIntegrationConfig :=
  { host := "blob.core.windows.net" }

/-- `readAzureBlobStorageIntegrationConfigs(configs)`: read each entry, then
append the convenience `blob.core.windows.net` entry when no parsed entry
already has that host. -/
def readAzureBlobStorageIntegrationConfigs (isValidHost : String → Bool)
    (configs : List AzureBlobConfigInput) :
    Except String (List AzureBlobStorageIntegrationConfig) :=
  match configs.mapM (readAzureBlobStorageIntegrationConfig isValidHost) with
  | .error e => .error e
  | .ok result =>
    if result.any (fun c => c.host = "blob.core.windows.net") then .ok result
    else .ok (result ++ [defaultAzureBlobEntry])

/-! ## Helper predicates and supporting lemmas -/

/-- Whether an `Except` value is a success. -/
def exceptIsOk {ε α : Type} : Except ε α → Bool
  | .ok _ => true
  | .error _ => false

/-- Characters safe in a URL host position: no percent-encoding, no URL
delimiter. -/
def plainHostChar (c : Char) : Bool :=
  c.isAlphanum || c = '.' || c = '-' || c = '_' || c = '~'

/-- Characters safe in an object key: host-safe characters plus `/`. -/
def plainKeyChar (c : Char) : Bool := plainHostChar c || c = '/'

/-- Every slash-separated segment of `s` is non-empty. -/
def nonEmptySegs (s : String) : Bool :=
  (jsSplit s '/').all (fun t => decide (t ≠ ""))

/-- A path segment that posix resolution keeps as-is. -/
def cleanSeg (t : String) : Bool :=
  decide (t ≠ "") && decide (t ≠ ".") && decide (t ≠ "..")

/-- Every slash-separated segment of `s` is kept as-is by posix resolution. -/
def cleanSegs (s : String) : Bool := (jsSplit s '/').all cleanSeg

theorem plainHostChar_ne (c : Char) (h : plainHostChar c = true) :
    c ≠ '/' ∧ c ≠ '?' ∧ c ≠ '#' := by
  refine ⟨?_, ?_, ?_⟩ <;> rintro rfl <;> exact absurd h (by decide)

theorem plainKeyChar_ne (c : Char) (h : plainKeyChar c = true) :
    c ≠ '?' ∧ c ≠ '#' := by
  refine ⟨?_, ?_⟩ <;> rintro rfl <;> exact absurd h (by decide)

theorem plainHostChar_not_delim (c : Char) (h : plainHostChar c = true) :
    isUrlDelim c = false := by
  obtain ⟨h1, h2, h3⟩ := plainHostChar_ne c h
  simp [isUrlDelim, h1, h2, h3]

theorem cleanSegs_spec (s : String) (h : cleanSegs s = true) :
    ∀ t ∈ jsSplit s '/', t ≠ "" ∧ t ≠ "." ∧ t ≠ ".." := by
  intro t ht
  have := List.all_eq_true.mp h t ht
  simp only [cleanSeg, Bool.and_eq_true, decide_eq_true_eq] at this
  exact ⟨this.1.1, this.1.2, this.2⟩

theorem jsSplit_ne_nil (s : String) (sep : Char) : jsSplit s sep ≠ [] := by
  simp [jsSplit, splitChar]

theorem jsSplit_slash_append (p rest : String) :
    jsSplit (p ++ "/" ++ rest) '/' = jsSplit p '/' ++ jsSplit rest '/' := by
  unfold jsSplit
  have h : (p ++ "/" ++ rest).toList = p.toList ++ '/' :: rest.toList := by
    simp [String.toList, String.data_append]
  rw [h, splitChar_append, List.map_append]

theorem resolve_clean (s : String)
    (h : ∀ t ∈ jsSplit s '/', t ≠ "" ∧ t ≠ "." ∧ t ≠ "..") :
    posixResolveSegs s = jsSplit s '/' := by
  have general : ∀ (l : List String), (∀ t ∈ l, t ≠ "" ∧ t ≠ "." ∧ t ≠ "..") →
      ∀ (acc : List String),
      l.foldl (fun acc seg =>
        if seg = "" ∨ seg = "." then acc
        else if seg = ".." then acc.dropLast
        else acc ++ [seg]) acc = acc ++ l := by
    intro l
    induction l with
    | nil => intro _ acc; simp
    | cons t rest ih =>
        intro hcl acc
        obtain ⟨h1, h2, h3⟩ := hcl t (by simp)
        have step := ih (fun x hx => hcl x (by simp [hx])) (acc ++ [t])
        simp [List.foldl, h1, h2, h3, step]
  simpa [posixResolveSegs] using general _ h []

theorem commonPrefixLength_self_append (a b : List String) :
    commonPrefixLength a (a ++ b) = a.length := by
  induction a with
  | nil => rfl
  | cons x xs ih => simp [commonPrefixLength, ih]

theorem posixRelative_strip (p rest : String)
    (hp : ∀ t ∈ jsSplit p '/', t ≠ "" ∧ t ≠ "." ∧ t ≠ "..")
    (hr : ∀ t ∈ jsSplit rest '/', t ≠ "" ∧ t ≠ "." ∧ t ≠ "..") :
    posixRelative p (p ++ "/" ++ rest) = rest := by
  have hcomb : ∀ t ∈ jsSplit (p ++ "/" ++ rest) '/', t ≠ "" ∧ t ≠ "." ∧ t ≠ ".." := by
    intro t ht
    rw [jsSplit_slash_append] at ht
    rcases List.mem_append.mp ht with h | h
    · exact hp t h
    · exact hr t h
  unfold posixRelative
  simp only [resolve_clean p hp, resolve_clean _ hcomb, jsSplit_slash_append,
    commonPrefixLength_self_append, Nat.sub_self, List.replicate_zero,
    List.nil_append, List.drop_left, jsJoin_jsSplit]

/-! ## Claim theorems -/

/-- C1: for a connected provider, a successful `refresh()` publishes to the
sink exactly one mutation, of type `full`, whose entities are exactly the
location descriptors mapped in order from the complete listed sequence of
non-empty blob keys — one entity per key, each keyed by the provider's
name. -/
theorem c1_refresh_publishes_full_mutation (s : ProviderState) (blobs : List Blob)
    (sink : List Mutation) (h : s.connected = true) :
    refresh s (.ok blobs) sink =
      (.ok (), sink ++
        [{ type := "full",
           entities := ((blobs.map Blob.name).filter (fun n => decide (n ≠ ""))).map
             (fun key =>
               { locationKey := getProviderName s,
                 entity := locationSpecToLocationEntity (createLocationSpec s key) }) }]) := by
  simp [refresh, h, fullMutation, listAllBlobKeys_eq]

/-- Witness for C1 at a concrete provider, listing and sink. -/
theorem c1_refresh_witness :
    refresh
      (connect
        { config := { id := "my-id", containerName := "cont" },
          accountName := "acct", host := "blob.core.windows.net",
          connected := false, blobServiceClientUrl := none })
      (.ok [{ name := "a.yaml", lastModified := 1 }, { name := "", lastModified := 2 }]) [] =
      (.ok (),
        [{ type := "full",
           entities :=
             [{ locationKey := "azureBlobStorage-provider:my-id",
                entity :=
                  { location :=
                    { type := "url",
                      target := "https://acct.blob.core.windows.net/cont/a.yaml",
                      presence := "required" } } }] }]) := by
  rw [c1_refresh_publishes_full_mutation _ _ _ rfl]
  rfl

/-- C6: `refresh()` before `connect()` fails with the `Not initialized`
error and publishes nothing: the sink is exactly as before. -/
theorem c6_refresh_before_connect (s : ProviderState)
    (listing : Except String (List Blob)) (sink : List Mutation)
    (h : s.connected = false) :
    refresh s listing sink = (.error "Not initialized", sink) := by
  simp [refresh, h]

/-- Witness for C6 at a concrete unconnected provider. -/
theorem c6_refresh_witness :
    refresh
      { config := { id := "my-id", containerName := "cont" },
        accountName := "acct", host := "blob.core.windows.net",
        connected := false, blobServiceClientUrl := none }
      (.ok [{ name := "a.yaml", lastModified := 1 }]) [] =
      (.error "Not initialized", []) :=
  c6_refresh_before_connect _ _ _ rfl

/-- C7: the scheduled task body catches a failed cycle (the listing error is
swallowed, only logged), leaves the sink's prior state untouched, and a
subsequent successful `refresh` proceeds normally, publishing its full
mutation on top of the untouched sink. -/
theorem c7_refresh_failure_containment (s : ProviderState) (e : String)
    (sink : List Mutation) (blobs : List Blob) (h : s.connected = true) :
    scheduledRefreshTask s (.error e) sink = (sink, true) ∧
    scheduledRefreshTask s (.ok blobs) ((scheduledRefreshTask s (.error e) sink).1) =
      (sink ++ [fullMutation s blobs], false) := by
  constructor <;> simp [scheduledRefreshTask, refresh, h]

/-- Witness for C7 at a concrete provider, failure and follow-up listing. -/
theorem c7_refresh_witness :
    scheduledRefreshTask
      (connect
        { config := { id := "my-id", containerName := "cont" },
          accountName := "acct", host := "blob.core.windows.net",
          connected := false, blobServiceClientUrl := none })
      (.error "listing failed") [] = ([], true) ∧
    scheduledRefreshTask
      (connect
        { config := { id := "my-id", containerName := "cont" },
          accountName := "acct", host := "blob.core.windows.net",
          connected := false, blobServiceClientUrl := none })
      (.ok [{ name := "k.yaml", lastModified := 3 }])
      ((scheduledRefreshTask
        (connect
          { config := { id := "my-id", containerName := "cont" },
            accountName := "acct", host := "blob.core.windows.net",
            connected := false, blobServiceClientUrl := none })
        (.error "listing failed") []).1) =
      ([] ++
        [fullMutation
          (connect
            { config := { id := "my-id", containerName := "cont" },
              accountName := "acct", host := "blob.core.windows.net",
              connected := false, blobServiceClientUrl := none })
          [{ name := "k.yaml", lastModified := 3 }]], false) :=
  c7_refresh_failure_containment _ "listing failed" [] _ rfl

/-- C5: `parseUrl` splits the URL's path component on `/`, drops empty
segments, fails exactly when fewer than two segments remain, and otherwise
returns the first segment as the container and the rest re-joined with `/`
as the path; with the two concrete examples of the spec. -/
theorem c5_parseUrl_spec (url : String) :
    (∀ pathname, urlPathname? url = some pathname →
      (((jsSplit pathname '/').filter (fun s => decide (s ≠ ""))).length < 2 →
        parseUrl url = .error ("Invalid Azure Blob Storage URL format: " ++ url)) ∧
      (2 ≤ ((jsSplit pathname '/').filter (fun s => decide (s ≠ ""))).length →
        parseUrl url =
          .ok { container := ((jsSplit pathname '/').filter (fun s => decide (s ≠ "")))[0]!,
                path := jsJoin "/"
                  (((jsSplit pathname '/').filter (fun s => decide (s ≠ ""))).drop 1) })) ∧
    parseUrl "https://a.b/container/dir/file.txt" =
      .ok { path := "dir/file.txt", container := "container" } ∧
    parseUrl "https://a.b/onlycontainer" =
      .error "Invalid Azure Blob Storage URL format: https://a.b/onlycontainer" := by
  refine ⟨?_, by rfl, by rfl⟩
  intro pathname hpn
  constructor
  · intro hlt
    simp only [parseUrl, hpn]
    rw [if_pos hlt]
  · intro hge
    have hlt : ¬ ((jsSplit pathname '/').filter (fun s => decide (s ≠ ""))).length < 2 := by
      omega
    simp only [parseUrl, hpn]
    rw [if_neg hlt]

/-- C2 counterexample: the key `a//b` (an object key with an empty
slash-separated segment) does not round-trip — the parser drops the empty
segment and recovers `a/b` instead of the original key. -/
theorem c2_roundtrip_counterexample :
    parseUrl
      (createObjectUrl
        (connect
          { config := { id := "my-id", containerName := "c" },
            accountName := "acct", host := "blob.core.windows.net",
            connected := false, blobServiceClientUrl := none }) "a//b") =
      .ok { path := "a/b", container := "c" } ∧
    ("a/b" : String) ≠ "a//b" := ⟨rfl, by decide⟩

/-- C2 amended: for a connected provider whose account name, host and
container name consist of plain host characters (the container non-empty
and not a `.` or `..` segment), and for every key made of plain URL
characters whose slash-separated segments are all non-empty and none of
which is `.` or `..` (the URL parser's dot-segment normalization would
rewrite those), the URL built by `createObjectUrl` round-trips through
`parseUrl` to exactly the original container and key. -/
theorem c2_roundtrip_amended (s : ProviderState) (key : String)
    (hA : (s.accountName ++ "." ++ s.host).toList.all plainHostChar = true)
    (hC1 : s.config.containerName ≠ "")
    (hC2 : s.config.containerName.toList.all plainHostChar = true)
    (hC3 : s.config.containerName ≠ "." ∧ s.config.containerName ≠ "..")
    (hK1 : key.toList.all plainKeyChar = true)
    (hK2 : cleanSegs key = true) :
    parseUrl (createObjectUrl (connect s) key) =
      .ok { path := key, container := s.config.containerName } := by
  have hurl : createObjectUrl (connect s) key =
      "https://" ++ (s.accountName ++ "." ++ s.host) ++ "/" ++
        (s.config.containerName ++ "/" ++ key) := by
    apply strExt
    simp [createObjectUrl, connect, mkServiceUrl, String.data_append]
  have hne : (s.accountName ++ "." ++ s.host).toList ≠ [] := by
    intro h
    simp [String.toList, String.data_append] at h
  have hh : ∀ c ∈ (s.accountName ++ "." ++ s.host).toList, isUrlDelim c = false :=
    fun c hc => plainHostChar_not_delim c (List.all_eq_true.mp hA c hc)
  have hp : ∀ c ∈ (s.config.containerName ++ "/" ++ key).toList,
      (decide (c ≠ '?') && decide (c ≠ '#')) = true := by
    intro c hc
    have hc' : c ∈ s.config.containerName.toList ++ '/' :: key.toList := by
      simpa [String.toList, String.data_append] using hc
    rcases List.mem_append.mp hc' with h | h
    · obtain ⟨_, h2, h3⟩ := plainHostChar_ne c (List.all_eq_true.mp hC2 c h)
      simp [h2, h3]
    · rcases List.mem_cons.mp h with h | h
      · subst h; decide
      · obtain ⟨h2, h3⟩ := plainKeyChar_ne c (List.all_eq_true.mp hK1 c h)
        simp [h2, h3]
  have hCslash : ∀ c ∈ s.config.containerName.toList, c ≠ '/' := by
    intro c hc
    exact (plainHostChar_ne c (List.all_eq_true.mp hC2 c hc)).1
  have hd : ∀ t ∈ splitChar '/' (s.config.containerName ++ "/" ++ key).toList,
      t ≠ dotSeg ∧ t ≠ dotDotSeg := by
    intro t ht
    have hlist : (s.config.containerName ++ "/" ++ key).toList =
        s.config.containerName.toList ++ '/' :: key.toList := by
      simp [String.toList, String.data_append]
    rw [hlist, splitChar_append,
      splitChar_no_sep '/' s.config.containerName.toList hCslash] at ht
    rcases List.mem_append.mp ht with h | h
    · have heq : t = s.config.containerName.toList := by simpa using h
      subst heq
      exact ⟨fun hdot => hC3.1 (strExt hdot), fun hdot => hC3.2 (strExt hdot)⟩
    · have hall := List.all_eq_true.mp hK2 (String.mk t)
        (List.mem_map.mpr ⟨t, h, rfl⟩)
      simp only [cleanSeg, Bool.and_eq_true, decide_eq_true_eq] at hall
      refine ⟨fun hdot => hall.1.2 ?_, fun hdot => hall.2 ?_⟩
      · rw [hdot]; rfl
      · rw [hdot]; rfl
  have hpn : urlPathname? (createObjectUrl (connect s) key) =
      some ("/" ++ (s.config.containerName ++ "/" ++ key)) := by
    rw [hurl]
    exact urlPathname_https _ _ hne hh hp hd
  have hsplitChars :
      splitChar '/' ("/" ++ (s.config.containerName ++ "/" ++ key)).toList =
        [[], s.config.containerName.toList] ++ splitChar '/' key.toList := by
    have hlist : ("/" ++ (s.config.containerName ++ "/" ++ key)).toList =
        [] ++ '/' :: (s.config.containerName.toList ++ '/' :: key.toList) := by
      simp [String.toList, String.data_append]
    rw [hlist, splitChar_append, splitChar_append,
      splitChar_no_sep '/' s.config.containerName.toList hCslash]
    rfl
  have hsegs :
      (jsSplit ("/" ++ (s.config.containerName ++ "/" ++ key)) '/').filter
          (fun t => decide (t ≠ "")) =
        s.config.containerName :: jsSplit key '/' := by
    unfold jsSplit
    rw [hsplitChars, filter_map_mk]
    have hkeyClean :
        (splitChar '/' key.toList).filter (fun p => decide (p ≠ [])) =
          splitChar '/' key.toList := by
      rw [List.filter_eq_self]
      intro p hp2
      have hall := List.all_eq_true.mp hK2 (String.mk p)
        (List.mem_map.mpr ⟨p, hp2, rfl⟩)
      simp only [cleanSeg, Bool.and_eq_true, decide_eq_true_eq] at hall
      simp only [decide_eq_true_eq]
      intro hnil
      exact hall.1.1 (by rw [hnil])
    have hCnil : s.config.containerName.toList ≠ [] := by
      intro h
      exact hC1 (by
        have := congrArg String.mk h
        simpa using this)
    simp only [List.append_eq, List.filter_append]  -- normalize shapes
    rw [List.filter_cons, List.filter_cons]
    simp only [decide_eq_true_eq]
    rw [if_neg (by simp), if_pos hCnil, List.filter_nil, hkeyClean]
    simp [jsSplit]
  have hlen : 2 ≤ (s.config.containerName :: jsSplit key '/').length := by
    have := jsSplit_ne_nil key '/'
    cases hk : jsSplit key '/' with
    | nil => exact absurd hk this
    | cons a l => simp
  unfold parseUrl
  rw [hpn]
  simp only [hsegs]
  rw [if_neg (by omega)]
  simp [jsJoin_jsSplit]

/-- Witness for C2's amended theorem at a concrete provider and key. -/
theorem c2_roundtrip_witness :
    parseUrl
      (createObjectUrl
        (connect
          { config := { id := "my-id", containerName := "cont" },
            accountName := "acct", host := "blob.core.windows.net",
            connected := false, blobServiceClientUrl := none }) "dir/file.txt") =
      .ok { path := "dir/file.txt", container := "cont" } :=
  c2_roundtrip_amended _ "dir/file.txt" (by decide) (by decide) (by decide)
    (by decide) (by decide) (by decide)

/-- C3: a `readUrl` whose `etag` equals the stored object's current ETag
fails with `NotModified` (distinct from a generic failure), and every other
failing attempt is wrapped as a `ForwardedError` (the `ReadFailed` shape)
preserving the original cause. -/
theorem c3_readUrl_error_taxonomy (store : BlobStore) (url : String)
    (opts : ReadUrlOptions) (p c : String) (blob : BlobObject)
    (hparse : parseUrl url = .ok { path := p, container := c })
    (hstore : store c p = some blob)
    (hetag : opts.etag = some blob.etag) :
    (readUrl store url opts).1 = .error .notModified ∧
    (∀ (url2 : String) (opts2 : ReadUrlOptions) (e : JsError),
      (readUrlAttempt store url2 opts2).1 = .error e →
      hasMetadata304 e = false →
      (readUrl store url2 opts2).1 =
        .error (.forwarded "Could not retrieve file from Azure Blob Storage" e)) := by
  constructor
  · simp [readUrl, readUrlAttempt, azureDownload, hparse, hstore, hetag, hasMetadata304]
  · intro url2 opts2 e he h304
    simp [readUrl, he, h304]

/-- Witness for C3 at a concrete store, URL and matching etag. -/
theorem c3_readUrl_witness :
    (readUrl
      (fun c p => if c = "cont" ∧ p = "f.yaml" then
        some { content := [1, 2], etag := "etag1", lastModified := 7 } else none)
      "https://acct.blob.core.windows.net/cont/f.yaml"
      { etag := some "etag1" }).1 = .error .notModified :=
  (c3_readUrl_error_taxonomy
    (fun c p => if c = "cont" ∧ p = "f.yaml" then
      some { content := [1, 2], etag := "etag1", lastModified := 7 } else none)
    "https://acct.blob.core.windows.net/cont/f.yaml"
    { etag := some "etag1" } "f.yaml" "cont"
    { content := [1, 2], etag := "etag1", lastModified := 7 }
    rfl (by decide) rfl).1

/-- C4: the caller's cancellation signal has no effect on `readUrl` or
`readTree` — neither links its locally created `AbortController` to the
backend download it opens (every logged download request is unlinked), so
a firing signal changes nothing and no call fails with an abort error. -/
theorem c4_cancel_signal_unlinked (store : BlobStore) (url : String)
    (etag : Option String) (lastModifiedAfter : Option Nat)
    (blobs : List TreeBlobItem) :
    readUrl store url
        { etag := etag, lastModifiedAfter := lastModifiedAfter, signalFires := true } =
      readUrl store url
        { etag := etag, lastModifiedAfter := lastModifiedAfter, signalFires := false } ∧
    (∀ req ∈ (readUrl store url
        { etag := etag, lastModifiedAfter := lastModifiedAfter,
          signalFires := true }).2, req.abortSignalLinked = false) ∧
    readTree blobs url true = readTree blobs url false ∧
    (∀ req ∈ (readTree blobs url true).2, req.abortSignalLinked = false) := by
  refine ⟨?_, ?_, rfl, ?_⟩
  · unfold readUrl readUrlAttempt
    cases h : parseUrl url with
    | error m => rfl
    | ok parsed => simp [azureDownload]
  · intro req hreq
    unfold readUrl readUrlAttempt at hreq
    cases h : parseUrl url with
    | error m => rw [h] at hreq; simp at hreq
    | ok parsed =>
        rw [h] at hreq
        simp at hreq
        simp [hreq]
  · intro req hreq
    unfold readTree at hreq
    cases h : parseUrl url with
    | error m => rw [h] at hreq; simp at hreq
    | ok parsed =>
        rw [h] at hreq
        simp at hreq
        obtain ⟨b, _, heq⟩ := hreq
        rw [← heq]

/-- C8 counterexample: for the queried string prefix `pre`, the listed blob
`prefix/file.yaml` gets `relativePath` `../prefix/file.yaml`, which is not
the absolute key with the queried prefix stripped (`fix/file.yaml`). -/
theorem c8_relativePath_counterexample :
    (readTree [{ name := "prefix/file.yaml", lastModified := 5, content := [1] }]
      "https://acct.blob.core.windows.net/c/pre" false).1 =
      .ok [{ data := [1], path := "../prefix/file.yaml", lastModifiedAt := 5 }] ∧
    ("../prefix/file.yaml" : String) ≠ "fix/file.yaml" := ⟨rfl, by decide⟩

/-- C8 amended: `readTree` fetches each listed blob unconditionally (no
ETag or modification-time condition on any download), and for a queried
path whose slash-separated segments are clean, a blob key that extends the
queried path on a segment boundary (`key = path ++ "/" ++ rest` with `rest`
clean) gets `relativePath = rest`, computed with forward slashes. -/
theorem c8_readTree_relative_paths (blobs : List TreeBlobItem) (url p c : String)
    (sf : Bool)
    (hparse : parseUrl url = .ok { path := p, container := c })
    (hp : cleanSegs p = true) :
    (readTree blobs url sf).1 =
      .ok ((listBlobsFlat blobs p).map fun b =>
        { data := b.content, path := posixRelative p b.name,
          lastModifiedAt := b.lastModified }) ∧
    (readTree blobs url sf).2 =
      (listBlobsFlat blobs p).map (fun b =>
        { container := c, blobPath := b.name,
          conditions := { ifNoneMatch := none, ifModifiedSince := none },
          abortSignalLinked := false }) ∧
    (∀ rest, cleanSegs rest = true →
      posixRelative p (p ++ "/" ++ rest) = rest) := by
  refine ⟨?_, ?_, ?_⟩
  · simp [readTree, hparse]
  · simp [readTree, hparse]
  · intro rest hr
    exact posixRelative_strip p rest (cleanSegs_spec p hp) (cleanSegs_spec rest hr)

/-- Witness for C8's amended theorem at a concrete listing and URL. -/
theorem c8_readTree_witness :
    (readTree [{ name := "pre/sub/a.yaml", lastModified := 7, content := [2] }]
      "https://acct.blob.core.windows.net/cont/pre" false).1 =
      .ok ((listBlobsFlat [{ name := "pre/sub/a.yaml", lastModified := 7, content := [2] }] "pre").map
        fun b =>
          { data := b.content, path := posixRelative "pre" b.name,
            lastModifiedAt := b.lastModified }) ∧
    posixRelative "pre" ("pre" ++ "/" ++ "sub/a.yaml") = "sub/a.yaml" := by
  have h := c8_readTree_relative_paths
    [{ name := "pre/sub/a.yaml", lastModified := 7, content := [2] }]
    "https://acct.blob.core.windows.net/cont/pre" "pre" "cont" false
    rfl (by decide)
  exact ⟨h.1, h.2.2 "sub/a.yaml" (by decide)⟩

/-- C9 counterexample: a config with no credential form at all is rejected
(it lacks the required `accountName`), and a config whose `accountKey` is
set to whitespace alongside a `sasToken` is accepted (the key trims to
blank), so the claim's acceptance and rejection clauses both fail as
stated. -/
theorem c9_config_counterexample :
    exceptIsOk (readAzureBlobStorageIntegrationConfig (fun _ => true) {}) = false ∧
    exceptIsOk (readAzureBlobStorageIntegrationConfig (fun _ => true)
      { accountName := some "acct", accountKey := some " ",
        sasToken := some "tok" }) = true := ⟨rfl, rfl⟩

/-- C9 amended: with `accountName` present, the host accepted by the host
validator and a well-formed (or absent) `aadCredential` block, reading
fails whenever both `accountKey` and `sasToken` are non-blank after
trimming, fails whenever `aadCredential` is present together with a
non-blank `accountKey` or `sasToken`, and otherwise succeeds, returning
the fields with the optional strings trimmed. -/
theorem c9_config_mutual_exclusion (valid : String → Bool)
    (cfg : AzureBlobConfigInput) (an : String) (aad : Option AadCredential)
    (hname : cfg.accountName = some an)
    (hhost : valid (cfg.host.getD "blob.core.windows.net") = true)
    (haad : readAadCredential cfg.aadCredential = .ok aad) :
    ((jsTruthy (cfg.accountKey.map jsTrim) &&
        jsTruthy (cfg.sasToken.map jsTrim)) = true →
      exceptIsOk (readAzureBlobStorageIntegrationConfig valid cfg) = false) ∧
    ((aad.isSome && (jsTruthy (cfg.accountKey.map jsTrim) ||
        jsTruthy (cfg.sasToken.map jsTrim))) = true →
      exceptIsOk (readAzureBlobStorageIntegrationConfig valid cfg) = false) ∧
    ((jsTruthy (cfg.accountKey.map jsTrim) &&
        jsTruthy (cfg.sasToken.map jsTrim)) = false →
      (aad.isSome && (jsTruthy (cfg.accountKey.map jsTrim) ||
        jsTruthy (cfg.sasToken.map jsTrim))) = false →
      readAzureBlobStorageIntegrationConfig valid cfg =
        .ok { host := cfg.host.getD "blob.core.windows.net",
              accountName := some an,
              accountKey := cfg.accountKey.map jsTrim,
              sasToken := cfg.sasToken.map jsTrim,
              connectionString := cfg.connectionString.map jsTrim,
              endpointSuffix := cfg.endpointSuffix.map jsTrim,
              aadCredential := aad }) := by
  refine ⟨?_, ?_, ?_⟩
  · intro h1
    simp [readAzureBlobStorageIntegrationConfig, hname, hhost, haad, h1, exceptIsOk]
  · intro h1
    by_cases h2 : (jsTruthy (cfg.accountKey.map jsTrim) &&
        jsTruthy (cfg.sasToken.map jsTrim)) = true
    · simp [readAzureBlobStorageIntegrationConfig, hname, hhost, haad, h2, exceptIsOk]
    · simp only [Bool.not_eq_true] at h2
      simp [readAzureBlobStorageIntegrationConfig, hname, hhost, haad, h1, h2, exceptIsOk]
  · intro h1 h2
    simp [readAzureBlobStorageIntegrationConfig, hname, hhost, haad, h1, h2]

/-- Witness for C9's amended theorem at a concrete accepted config. -/
theorem c9_config_witness :
    readAzureBlobStorageIntegrationConfig (fun _ => true)
      { accountName := some "acct", accountKey := some " key " } =
      .ok { host := "blob.core.windows.net", accountName := some "acct",
            accountKey := some "key", sasToken := none,
            connectionString := none, endpointSuffix := none,
            aadCredential := none } := by
  have h := (c9_config_mutual_exclusion (fun _ => true)
    { accountName := some "acct", accountKey := some " key " }
    "acct" none rfl rfl rfl).2.2 rfl rfl
  exact h.trans (by rfl)

/-- C10: when `readAzureBlobStorageIntegrationConfigs` returns, its result
is the per-entry parsed configs, with one extra
`{ host := blob.core.windows.net }` entry (no account name, no credentials)
appended exactly when no parsed entry already has that host; hence the
result always contains an entry with that host and is never empty. -/
theorem c10_configs_default_entry (valid : String → Bool)
    (configs : List AzureBlobConfigInput)
    (res : List AzureBlobStorageIntegrationConfig)
    (h : readAzureBlobStorageIntegrationConfigs valid configs = .ok res) :
    (∃ parsed,
      configs.mapM (readAzureBlobStorageIntegrationConfig valid) = .ok parsed ∧
      res = if parsed.any (fun c => c.host = "blob.core.windows.net") then parsed
            else parsed ++ [defaultAzureBlobEntry]) ∧
    res.any (fun c => c.host = "blob.core.windows.net") = true ∧
    res ≠ [] := by
  unfold readAzureBlobStorageIntegrationConfigs at h
  cases hm : configs.mapM (readAzureBlobStorageIntegrationConfig valid) with
  | error e =>
      rw [hm] at h
      exact absurd h (by simp)
  | ok parsed =>
      rw [hm] at h
      have h' : (if parsed.any (fun c => c.host = "blob.core.windows.net") then
          Except.ok (ε := String) parsed
        else .ok (parsed ++ [defaultAzureBlobEntry])) = .ok res := h
      by_cases hany : parsed.any (fun c => c.host = "blob.core.windows.net") = true
      · rw [if_pos hany] at h'
        obtain rfl : parsed = res := by simpa using h'
        refine ⟨⟨parsed, rfl, by rw [if_pos hany]⟩, hany, ?_⟩
        intro hnil
        rw [hnil] at hany
        simp at hany
      · rw [if_neg hany] at h'
        obtain rfl : parsed ++ [defaultAzureBlobEntry] = res := by simpa using h'
        refine ⟨⟨parsed, rfl, by rw [if_neg hany]⟩, ?_, by simp⟩
        simp [List.any_append, defaultAzureBlobEntry]

/-- Witness for C10 at the empty config list. -/
theorem c10_configs_witness :
    ([defaultAzureBlobEntry].any (fun c => c.host = "blob.core.windows.net") = true) ∧
    [defaultAzureBlobEntry] ≠ ([] : List AzureBlobStorageIntegrationConfig) :=
  (c10_configs_default_entry (fun _ => true) [] [defaultAzureBlobEntry] rfl).2

end AzureBlob
